import Mathlib

/-!
# Verification of the ember-firebase collection and binding core

This file gives a shallow embedding of the core of `src/ember-firebase.js`:

* `Firebase.List` (third section of the source): the ordered collection
  synchronizer — `_indexAfter`, `childWasAdded`, `childWasChanged`,
  `childWasRemoved`, `childWasMoved`, `replaceContent`;
* `Firebase.Array` (second section of the source): the same child-event
  handlers guarded by the reserved `_isArray` marker key;
* `Firebase.Binding` (third section of the source): the two-way binding
  scheduler — `_scheduleSync`, `_refDidChange`, `_pathDidChange`, `_sync`,
  and the run-loop `sync` queue flush (the synchronization checkpoint).

JavaScript specifics are modelled explicitly: `Array.prototype.indexOf`
returns `-1` when the element is absent (`jsIndexOf`), `names[i] = n` is an
in-place assignment that appends only when `i` equals the length
(`namesSetAt`), and Ember's `replace(index, amount, objects)` splices
(`arrayReplace`).  Value coercion (`getSnapshotValue` / `getFirebaseValue`,
identity on scalars) is modelled as the identity on an abstract value type.
-/

/-- String constants used by witnesses and counterexamples, kept as named
definitions. -/
def isArrayKey : String := "_isArray"

def nameA : String := "a"

def nameB : String := "b"

def nameC : String := "c"

/-- JavaScript `Array.prototype.indexOf`: the index of the first occurrence
of `x` in `l`, and `-1` when `x` does not occur. -/
def jsIndexOf (l : List String) (x : String) : Int :=
  match l with
  | [] => -1
  | a :: rest =>
    if a = x then 0
    else
      let r := jsIndexOf rest x
      if r = -1 then -1 else r + 1

/-- JavaScript `names[i] = n` on a dense array with `i ≤ names.length`
(the only way the source calls it): overwrite in place, or append when
`i = names.length`. -/
def namesSetAt (names : List String) (i : Nat) (n : String) : List String :=
  if i < names.length then names.set i n else names ++ [n]

/-- Ember `content.replace(index, amount, objects)`: splice out up to
`amount` elements starting at `index` and splice `objects` in at `index`.
`Firebase.List#childWasAdded` and friends call it on the raw content array. -/
def arrayReplace {V : Type} (content : List V) (index amount : Nat)
    (objects : List V) : List V :=
  content.take index ++ objects ++ content.drop (index + amount)

/-- The local state of a `Firebase.List` (and of a `Firebase.Array`): the
parallel `content` and `_names` sequences. -/
structure ListState (V : Type) where
  content : List V
  names : List String
deriving DecidableEq

/-- `Firebase.List#_indexAfter`: `childName ? this._names.indexOf(childName) + 1 : 0`.
JavaScript truthiness makes both `null`/`undefined` (here `none`) and the
empty string take the `0` branch; an absent name gives `-1 + 1 = 0`. -/
def indexAfter (names : List String) (childName : Option String) : Nat :=
  match childName with
  | none => 0
  | some n => if n = "" then 0 else (jsIndexOf names n + 1).toNat

/-- `Firebase.List#childWasAdded(snapshot, previousName)`:
`content.replace(index, 0, [value])` inserts the value, and
`this._names[index] = snapshot.name()` assigns (not inserts) the name. -/
def listChildWasAdded {V : Type} (s : ListState V) (name : String)
    (previousName : Option String) (value : V) : ListState V :=
  let index := indexAfter s.names previousName
  { content := arrayReplace s.content index 0 [value]
    names := namesSetAt s.names index name }

/-- `Firebase.List#childWasChanged(snapshot, previousName)`:
`content.replace(index, 1, [value])` and `this._names[index] = snapshot.name()`. -/
def listChildWasChanged {V : Type} (s : ListState V) (name : String)
    (previousName : Option String) (value : V) : ListState V :=
  let index := indexAfter s.names previousName
  { content := arrayReplace s.content index 1 [value]
    names := namesSetAt s.names index name }

/-- `Firebase.List#childWasRemoved(snapshot)`: look the name up with
`indexOf`; when found, `content.replace(index, 1)` and
`names.splice(index, 1)`; otherwise do nothing. -/
def listChildWasRemoved {V : Type} (s : ListState V) (name : String) :
    ListState V :=
  let index := jsIndexOf s.names name
  if index = -1 then s
  else
    { content := arrayReplace s.content index.toNat 1 []
      names := s.names.eraseIdx index.toNat }

/-- `Firebase.List#childWasMoved(snapshot, previousName)`: remove then
re-add with the same snapshot value, in one notification-handling turn. -/
def listChildWasMoved {V : Type} (s : ListState V) (name : String)
    (previousName : Option String) (value : V) : ListState V :=
  listChildWasAdded (listChildWasRemoved s name) name previousName value

/-- A child-event notification as delivered by the remote collaborator. -/
inductive ChildEvent (V : Type)
  | added (name : String) (value : V) (previousName : Option String)
  | changed (name : String) (value : V) (previousName : Option String)
  | removed (name : String)
  | moved (name : String) (value : V) (previousName : Option String)
deriving DecidableEq

/-- The sibling name an event refers to (`snapshot.name()`). -/
def ChildEvent.childName {V : Type} : ChildEvent V → String
  | .added n _ _ => n
  | .changed n _ _ => n
  | .removed n => n
  | .moved n _ _ => n

/-- Dispatch one child event to the `Firebase.List` handlers. -/
def listStep {V : Type} (s : ListState V) : ChildEvent V → ListState V
  | .added n v p => listChildWasAdded s n p v
  | .changed n v p => listChildWasChanged s n p v
  | .removed n => listChildWasRemoved s n
  | .moved n v p => listChildWasMoved s n p v

/-- A remote atomic operation issued by `Firebase.List#replaceContent`:
`ref.child(childName).remove()` or `ref.push().set(value)` (an auto-named
append; the operation carries no local index). -/
inductive RemoteOp (V : Type)
  | removeChild (childName : String)
  | pushSet (value : V)
deriving DecidableEq

/-- The error thrown by `Firebase.List#replaceContent` when `baseRef` is
missing: `new Error('Cannot replace content of %@, ref is missing')`. -/
inductive EditError
  | notBound
deriving DecidableEq

/-- `Firebase.List#replaceContent(index, amount, objects)`.  With no
`baseRef` it throws before touching anything; otherwise it issues one
`remove()` per name in `this._names.slice(index, index + amount)` followed
by one `push().set(...)` per object, in order.  It never mutates the local
`content`/`_names` (those change only through later child events), so the
local state is returned unchanged alongside the issued remote operations. -/
def replaceContent {V : Type} (baseRef : Option Unit) (s : ListState V)
    (index amount : Nat) (objects : List V) :
    ListState V × Except EditError (List (RemoteOp V)) :=
  match baseRef with
  | none => (s, Except.error EditError.notBound)
  | some _ =>
    (s, Except.ok
      (((s.names.drop index).take amount).map RemoteOp.removeChild ++
        objects.map RemoteOp.pushSet))

/-- `Firebase.Array#childWasAdded(snapshot, previousName)` (second section
of the source): skip the `_isArray` marker, then `content.insertAt(index, value)`
and `this._names[index] = snapshot.name()`. -/
def arrayChildWasAdded {V : Type} (s : ListState V) (name : String)
    (previousName : Option String) (value : V) : ListState V :=
  if name = isArrayKey then s
  else
    let index := indexAfter s.names previousName
    { content := arrayReplace s.content index 0 [value]
      names := namesSetAt s.names index name }

/-- `Firebase.Array#childWasChanged(snapshot, previousName)`: skip the
`_isArray` marker, then replace the value and assign the name. -/
def arrayChildWasChanged {V : Type} (s : ListState V) (name : String)
    (previousName : Option String) (value : V) : ListState V :=
  if name = isArrayKey then s
  else
    let index := indexAfter s.names previousName
    { content := arrayReplace s.content index 1 [value]
      names := namesSetAt s.names index name }

/-- `Firebase.Array#childWasRemoved(snapshot)`: skip the `_isArray` marker,
then remove by name when present. -/
def arrayChildWasRemoved {V : Type} (s : ListState V) (name : String) :
    ListState V :=
  if name = isArrayKey then s
  else
    let index := jsIndexOf s.names name
    if index = -1 then s
    else
      { content := arrayReplace s.content index.toNat 1 []
        names := s.names.eraseIdx index.toNat }

/-- `Firebase.Array#childWasMoved(snapshot, previousName)`: skip the
`_isArray` marker, then remove and re-add. -/
def arrayChildWasMoved {V : Type} (s : ListState V) (name : String)
    (previousName : Option String) (value : V) : ListState V :=
  if name = isArrayKey then s
  else arrayChildWasAdded (arrayChildWasRemoved s name) name previousName value

/-- Dispatch one child event to the `Firebase.Array` handlers. -/
def arrayStep {V : Type} (s : ListState V) : ChildEvent V → ListState V
  | .added n v p => arrayChildWasAdded s n p v
  | .changed n v p => arrayChildWasChanged s n p v
  | .removed n => arrayChildWasRemoved s n
  | .moved n v p => arrayChildWasMoved s n p v

/-! ## The two-way binding scheduler (`Firebase.Binding`) -/

/-- A binding owner (a connected Ember object): an identity plus its
`isDestroyed` flag. -/
structure Owner where
  oid : Nat
  isDestroyed : Bool
deriving DecidableEq

/-- A pending sync direction, as stored in `this._directionMap`. -/
inductive Direction
  | push
  | pull
deriving DecidableEq

/-- The mutable state of one `Firebase.Binding`:
`_oneWay`, the connected `_objects`, `_directionMap` keyed by owner
identity, the run-loop `sync` queue of pending `_sync(object, snapshot)`
calls (each entry keeps the snapshot captured when it was scheduled), and
the `_ignoreRefChanges` suppression flag. -/
structure BindingState (V : Type) where
  oneWay : Bool
  objects : List Owner
  directionMap : List (Nat × Direction)
  queue : List (Owner × Option V)
  ignoreRefChanges : Bool

/-- `Ember.Map#get` on the direction map. -/
def lookupDir (m : List (Nat × Direction)) (oid : Nat) : Option Direction :=
  (m.find? (fun p => p.1 == oid)).map (fun p => p.2)

/-- `Ember.Map#set` on the direction map: replace an existing entry or add
a new one. -/
def setDir (m : List (Nat × Direction)) (oid : Nat) (d : Direction) :
    List (Nat × Direction) :=
  if (m.find? (fun p => p.1 == oid)).isSome then
    m.map (fun p => if p.1 == oid then (oid, d) else p)
  else m ++ [(oid, d)]

/-- `Ember.Map#remove` on the direction map. -/
def removeDir (m : List (Nat × Direction)) (oid : Nat) :
    List (Nat × Direction) :=
  m.filter (fun p => p.1 != oid)

/-- `Firebase.Binding#_scheduleSync(direction, object, snapshot)`: when no
direction is pending for the owner, enqueue a `_sync(object, snapshot)`
call and record the direction; when a `push` is pending and a `pull`
arrives, upgrade the recorded direction to `pull` (the queued call and its
captured snapshot stay as they are); otherwise do nothing. -/
def scheduleSync {V : Type} (b : BindingState V) (direction : Direction)
    (o : Owner) (snapshot : Option V) : BindingState V :=
  match lookupDir b.directionMap o.oid with
  | none =>
    { b with
      queue := b.queue ++ [(o, snapshot)]
      directionMap := setDir b.directionMap o.oid direction }
  | some existing =>
    if existing = Direction.push ∧ direction = Direction.pull then
      { b with directionMap := setDir b.directionMap o.oid Direction.pull }
    else b

/-- The world a binding acts on: the binding itself, each owner's local
property value at `this.path` (total, keyed by owner identity), and the
remote value at `this.ref`. -/
structure World (V : Type) where
  binding : BindingState V
  locals : Nat → V
  remote : Option V

/-- `Firebase.Binding#_refDidChange(snapshot)`: ignored while
`_ignoreRefChanges` is set; otherwise schedule a `pull` for every
connected object, capturing the snapshot. -/
def refDidChange {V : Type} (w : World V) (snapshot : V) : World V :=
  if w.binding.ignoreRefChanges then w
  else
    { w with
      binding :=
        w.binding.objects.foldl
          (fun b o => scheduleSync b Direction.pull o (some snapshot))
          w.binding }

/-- `Firebase.Binding#_pathDidChange(object)` (registered only for two-way
bindings): schedule a `push`; no snapshot argument is passed, so the queued
`_sync` call captures `undefined` (`none`). -/
def pathDidChange {V : Type} (w : World V) (o : Owner) : World V :=
  { w with binding := scheduleSync w.binding Direction.push o none }

/-- An observable action performed by `Firebase.Binding#_sync`. -/
inductive SyncAction (V : Type)
  | localWrite (oid : Nat) (value : V)
  | remoteWrite (value : V)
  | snapshotError
deriving DecidableEq

/-- `Firebase.Binding#_sync(object, snapshot)`.  Returns the new world and
the actions performed:

* a destroyed owner is skipped before anything else happens;
* the pending direction is read and removed from `_directionMap`;
* `pull` coerces the captured snapshot (`createValueFromSnapshot`, i.e.
  `snapshot.val()`) and writes it to the local path — with the
  local-path observer suspended (`Ember._suspendObserver`) for exactly that
  write, so no `push` is scheduled from it; when the queued call captured
  no snapshot, `snapshot.val()` throws a `TypeError` (`snapshotError`);
* `push` reads the local value and calls `ref.set(value)`; the remote
  collaborator echoes the write synchronously (§5 of the design), so
  `_refDidChange` runs on the echo while `_ignoreRefChanges` is set, and
  the flag is cleared as soon as `ref.set` returns. -/
def sync {V : Type} (w : World V) (o : Owner) (snapshot : Option V) :
    World V × List (SyncAction V) :=
  if o.isDestroyed then (w, [])
  else
    let direction := lookupDir w.binding.directionMap o.oid
    let w1 : World V :=
      { w with binding :=
          { w.binding with directionMap := removeDir w.binding.directionMap o.oid } }
    match direction with
    | some Direction.pull =>
      match snapshot with
      | none => (w1, [SyncAction.snapshotError])
      | some v =>
        ({ w1 with locals := fun i => if i == o.oid then v else w1.locals i },
          [SyncAction.localWrite o.oid v])
    | some Direction.push =>
      let v := w1.locals o.oid
      let w2 : World V :=
        { w1 with
          binding := { w1.binding with ignoreRefChanges := true }
          remote := some v }
      let w3 := refDidChange w2 v
      ({ w3 with binding := { w3.binding with ignoreRefChanges := false } },
        [SyncAction.remoteWrite v])
    | none => (w1, [])

/-- Run the queued `_sync` calls in order, accumulating their actions. -/
def runQueue {V : Type} : World V → List (Owner × Option V) →
    World V × List (SyncAction V)
  | w, [] => (w, [])
  | w, (o, snap) :: rest =>
    let r1 := sync w o snap
    let r2 := runQueue r1.1 rest
    (r2.1, r1.2 ++ r2.2)

/-- The synchronization checkpoint: the run loop flushes the `sync` queue,
running each scheduled `_sync(object, snapshot)` call in order.  (In this
model `sync` never enqueues — the pull write suspends the path observer and
the push echo is suppressed — so draining the captured queue is the flush.) -/
def checkpoint {V : Type} (w : World V) : World V × List (SyncAction V) :=
  runQueue { w with binding := { w.binding with queue := [] } } w.binding.queue

/-! ## Helper lemmas -/

/-- `jsIndexOf` agrees with `List.indexOf` on members and is `-1` otherwise. -/
theorem jsIndexOf_eq_indexOf (l : List String) (x : String) :
    jsIndexOf l x = if x ∈ l then (l.indexOf x : Int) else -1 := by
  induction l with
  | nil => simp [jsIndexOf]
  | cons a rest ih =>
    rw [jsIndexOf]
    by_cases hax : a = x
    · subst hax
      simp [List.indexOf_cons_self]
    · by_cases hxr : x ∈ rest
      · have hmem : x ∈ a :: rest := List.mem_cons_of_mem a hxr
        rw [if_neg hax, ih, if_pos hxr, if_pos hmem,
          List.indexOf_cons_ne rest hax]
        have h0 : (0 : Int) ≤ (rest.indexOf x : Int) := Int.ofNat_nonneg _
        rw [if_neg (by omega)]
        push_cast [Nat.succ_eq_add_one]
        ring
      · have hnm : x ∉ a :: rest := by
          intro hmem
          rcases List.mem_cons.1 hmem with h | h
          · exact hax h.symm
          · exact hxr h
        rw [if_neg hax, ih, if_neg hxr, if_neg hnm]
        simp

theorem jsIndexOf_of_mem {l : List String} {x : String} (h : x ∈ l) :
    jsIndexOf l x = (l.indexOf x : Int) := by
  rw [jsIndexOf_eq_indexOf, if_pos h]

theorem jsIndexOf_of_not_mem {l : List String} {x : String} (h : x ∉ l) :
    jsIndexOf l x = -1 := by
  rw [jsIndexOf_eq_indexOf, if_neg h]

/-- The splice `content.replace(i, 1)` performed by `childWasRemoved` is
`List.eraseIdx`. -/
theorem arrayReplace_one_eq_eraseIdx {V : Type} (content : List V) (i : Nat) :
    arrayReplace content i 1 [] = content.eraseIdx i := by
  rw [arrayReplace, List.eraseIdx_eq_take_drop_succ]
  simp

/-- `namesSetAt` introduces no name other than the assigned one. -/
theorem not_mem_namesSetAt {names : List String} {i : Nat} {n x : String}
    (hx : x ∉ names) (hn : n ≠ x) : x ∉ namesSetAt names i n := by
  unfold namesSetAt
  split
  · intro hmem
    rcases List.mem_or_eq_of_mem_set hmem with h | h
    · exact hx h
    · exact hn h.symm
  · intro hmem
    rcases List.mem_append.1 hmem with h | h
    · exact hx h
    · exact hn (List.mem_singleton.1 h).symm

/-- `Firebase.Array#childWasAdded` never introduces the `_isArray` marker
into `_names`. -/
theorem isArrayKey_not_mem_arrayChildWasAdded {V : Type} (s : ListState V)
    (n : String) (p : Option String) (v : V) (h : isArrayKey ∉ s.names) :
    isArrayKey ∉ (arrayChildWasAdded s n p v).names := by
  unfold arrayChildWasAdded
  split
  · exact h
  · exact not_mem_namesSetAt h (by simp_all [eq_comm])

/-- `Firebase.Array#childWasChanged` never introduces the `_isArray` marker
into `_names`. -/
theorem isArrayKey_not_mem_arrayChildWasChanged {V : Type} (s : ListState V)
    (n : String) (p : Option String) (v : V) (h : isArrayKey ∉ s.names) :
    isArrayKey ∉ (arrayChildWasChanged s n p v).names := by
  unfold arrayChildWasChanged
  split
  · exact h
  · exact not_mem_namesSetAt h (by simp_all [eq_comm])

/-- `Firebase.Array#childWasRemoved` never introduces the `_isArray` marker
into `_names`. -/
theorem isArrayKey_not_mem_arrayChildWasRemoved {V : Type} (s : ListState V)
    (n : String) (h : isArrayKey ∉ s.names) :
    isArrayKey ∉ (arrayChildWasRemoved s n).names := by
  by_cases hn : n = isArrayKey
  · simp [arrayChildWasRemoved, hn, h]
  · by_cases hidx : jsIndexOf s.names n = -1
    · simp [arrayChildWasRemoved, hn, hidx, h]
    · simp only [arrayChildWasRemoved, hn, hidx, if_false, ite_false]
      intro hmem
      exact h (List.eraseIdx_subset _ _ hmem)

/-! ## Claim theorems -/

/-- C1 (evaluation at the failing input).  The claim says that
`childWasAdded` with a non-null, locally known `precedingName` inserts the
new value and name at `indexOf(precedingName) + 1` in *both* parallel
sequences, so both grow by one and every previous pair survives shifted.
The code inserts only into `content`; `this._names[index] = snapshot.name()`
*assigns*, so from `content = [1, 2]`, `names = ["a", "b"]`, the event
`added("c", 3, preceding "a")` yields `content = [1, 3, 2]` but
`names = ["a", "c"]`: the names sequence keeps length 2 and the previously
present pair `("b", 2)` loses its name. -/
theorem C1_childWasAdded_overwrites_names :
    listChildWasAdded (ListState.mk ([1, 2] : List Nat) [nameA, nameB])
        nameC (some nameA) 3 =
      ListState.mk [1, 3, 2] [nameA, nameC] ∧
    (listChildWasAdded (ListState.mk ([1, 2] : List Nat) [nameA, nameB])
        nameC (some nameA) 3).names.length = 2 ∧
    nameB ∉ (listChildWasAdded (ListState.mk ([1, 2] : List Nat) [nameA, nameB])
        nameC (some nameA) 3).names := by
  decide

/-- C4: `Firebase.List#replaceContent` on an unbound collection (no
`baseRef`) fails synchronously with the `NotBound` error, issues no remote
operation at all, and leaves the local `content`/`_names` unchanged. -/
theorem C4_replaceContent_unbound_fails {V : Type} (s : ListState V)
    (index amount : Nat) (objects : List V) :
    replaceContent none s index amount objects =
      (s, Except.error EditError.notBound) :=
  rfl

/-- C5: `childWasRemoved(name)` deletes the slot at the position of `name`
from both parallel sequences when `name` is present, and is a complete
no-op when it is not — in particular a duplicate `removed` event for an
already-removed name leaves the state unchanged and surfaces no error. -/
theorem C5_childWasRemoved_delete_or_noop {V : Type} (s : ListState V)
    (name : String) :
    (name ∉ s.names → listChildWasRemoved s name = s) ∧
    (name ∈ s.names →
      listChildWasRemoved s name =
        ListState.mk (s.content.eraseIdx (s.names.indexOf name))
          (s.names.eraseIdx (s.names.indexOf name))) := by
  constructor
  · intro h
    simp [listChildWasRemoved, jsIndexOf_of_not_mem h]
  · intro h
    have hidx : jsIndexOf s.names name = (s.names.indexOf name : Int) :=
      jsIndexOf_of_mem h
    have hne : ((s.names.indexOf name : Int)) ≠ -1 := by omega
    simp only [listChildWasRemoved, hidx]
    rw [if_neg hne,
      show ((s.names.indexOf name : Int)).toNat = s.names.indexOf name from rfl,
      arrayReplace_one_eq_eraseIdx]

/-- Witness for C5 at a concrete input: removing `"a"` from
`content = [1, 2]`, `names = ["a", "b"]` deletes slot 0 from both
sequences, and removing the absent `"c"` changes nothing. -/
theorem C5_witness :
    listChildWasRemoved (ListState.mk ([1, 2] : List Nat) [nameA, nameB]) nameA =
      ListState.mk [2] [nameB] ∧
    listChildWasRemoved (ListState.mk ([1, 2] : List Nat) [nameA, nameB]) nameC =
      ListState.mk [1, 2] [nameA, nameB] := by
  constructor
  · exact ((C5_childWasRemoved_delete_or_noop
      (ListState.mk ([1, 2] : List Nat) [nameA, nameB]) nameA).2 (by decide)).trans
      (by decide)
  · exact (C5_childWasRemoved_delete_or_noop
      (ListState.mk ([1, 2] : List Nat) [nameA, nameB]) nameC).1 (by decide)

/-- C6: `_indexAfter` resolves the target index to `0` for a null
`precedingName`, to `0` for a non-null `precedingName` that is not
currently in the local names sequence (the documented fallback, via
`indexOf = -1`), and to `indexOf(precedingName) + 1` when it is present.
The hypothesis `"" ∉ names` records that Firebase sibling names are
non-empty strings (an empty name would also take the JavaScript-falsy `0`
branch of `childName ? ... : 0`). -/
theorem C6_indexAfter_resolution (names : List String) (prev : Option String)
    (hkeys : "" ∉ names) :
    (prev = none → indexAfter names prev = 0) ∧
    (∀ n, prev = some n → n ∉ names → indexAfter names prev = 0) ∧
    (∀ n, prev = some n → n ∈ names →
      indexAfter names prev = names.indexOf n + 1) := by
  refine ⟨?_, ?_, ?_⟩
  · rintro rfl
    rfl
  · rintro n rfl hn
    by_cases h0 : n = ""
    · simp [indexAfter, h0]
    · simp [indexAfter, h0, jsIndexOf_of_not_mem hn]
  · rintro n rfl hn
    have h0 : n ≠ "" := fun h => hkeys (h ▸ hn)
    simp only [indexAfter, h0, if_false, ite_false, jsIndexOf_of_mem hn]
    omega

/-- Witness for C6 at concrete inputs: in `names = ["a", "b"]` the
preceding name `"b"` resolves to index 2, the unknown `"c"` falls back to
0, and a null preceding name gives 0. -/
theorem C6_witness :
    indexAfter [nameA, nameB] (some nameB) = 2 ∧
    indexAfter [nameA, nameB] (some nameC) = 0 ∧
    indexAfter [nameA, nameB] none = 0 := by
  refine ⟨?_, ?_, ?_⟩
  · exact ((C6_indexAfter_resolution [nameA, nameB] (some nameB)
      (by decide)).2.2 nameB rfl (by decide)).trans (by decide)
  · exact (C6_indexAfter_resolution [nameA, nameB] (some nameC)
      (by decide)).2.1 nameC rfl (by decide)
  · exact (C6_indexAfter_resolution [nameA, nameB] none (by decide)).1 rfl

/-- C7: on a bound collection, `replaceContent(index, amount, objects)`
issues exactly one remote remove-by-name per replaced slot — in order, the
`k`-th remove targeting `names[index + k]` — followed by exactly one
auto-named append (`push().set(value)`) per inserted object, in order.  The
append operations mention only the values, never the local insertion index,
so inserted values land after the existing remote children regardless of
`index`. -/
theorem C7_replaceContent_remote_ops {V : Type} (s : ListState V)
    (index amount : Nat) (objects : List V)
    (h : index + amount ≤ s.names.length) :
    (replaceContent (some ()) s index amount objects).2 =
      Except.ok (((s.names.drop index).take amount).map RemoteOp.removeChild ++
        objects.map RemoteOp.pushSet) ∧
    (((s.names.drop index).take amount).map
      (RemoteOp.removeChild (V := V))).length = amount ∧
    (∀ k, k < amount →
      (((s.names.drop index).take amount).map
        (RemoteOp.removeChild (V := V)))[k]? =
        (s.names[index + k]?).map RemoteOp.removeChild) ∧
    (objects.map (RemoteOp.pushSet (V := V))).length = objects.length := by
  refine ⟨rfl, ?_, ?_, by simp⟩
  · simp only [List.length_map, List.length_take, List.length_drop]
    omega
  · intro k hk
    rw [List.getElem?_map, List.getElem?_take, if_pos hk, List.getElem?_drop]

/-- Witness for C7 at a concrete input: replacing one element at index 1 of
`content = [10, 20, 30]`, `names = ["a", "b", "c"]` with `[99]` issues the
remove of child `"b"` followed by the append of `99`. -/
theorem C7_witness :
    (replaceContent (some ()) (ListState.mk ([10, 20, 30] : List Nat)
        [nameA, nameB, nameC]) 1 1 [99]).2 =
      Except.ok [RemoteOp.removeChild nameB, RemoteOp.pushSet 99] :=
  (C7_replaceContent_remote_ops (ListState.mk ([10, 20, 30] : List Nat)
    [nameA, nameB, nameC]) 1 1 [99] (by decide)).1

/-- C8: starting from an empty bound collection, the event sequence
`added(a,1,null)`, `added(b,2,"a")`, `moved(a,"b")`, `removed(b)` produces
the intermediate contents `[1]`, `[1,2]`, `[2,1]`, `[1]` with the names
tracking `["a"]`, `["a","b"]`, `["b","a"]`, `["a"]`. -/
theorem C8_reconciliation_scenario :
    listStep (ListState.mk ([] : List Nat) []) (.added nameA 1 none) =
      ListState.mk [1] [nameA] ∧
    listStep (ListState.mk ([1] : List Nat) [nameA]) (.added nameB 2 (some nameA)) =
      ListState.mk [1, 2] [nameA, nameB] ∧
    listStep (ListState.mk ([1, 2] : List Nat) [nameA, nameB])
        (.moved nameA 1 (some nameB)) =
      ListState.mk [2, 1] [nameB, nameA] ∧
    listStep (ListState.mk ([2, 1] : List Nat) [nameB, nameA]) (.removed nameB) =
      ListState.mk [1] [nameA] := by
  decide

/-- C9: for the `Firebase.Array` handlers, every child event whose name is
the reserved `_isArray` marker leaves both parallel sequences completely
unchanged, and the marker never enters the names sequence, so it never
occupies a slot and is excluded from index computation. -/
theorem C9_isArray_marker_excluded {V : Type} (s : ListState V)
    (e : ChildEvent V) :
    (e.childName = isArrayKey → arrayStep s e = s) ∧
    (isArrayKey ∉ s.names → isArrayKey ∉ (arrayStep s e).names) := by
  constructor
  · intro h
    cases e <;>
      simp_all [ChildEvent.childName, arrayStep, arrayChildWasAdded,
        arrayChildWasChanged, arrayChildWasRemoved, arrayChildWasMoved]
  · intro hmem
    cases e with
    | added n v p => exact isArrayKey_not_mem_arrayChildWasAdded s n p v hmem
    | changed n v p => exact isArrayKey_not_mem_arrayChildWasChanged s n p v hmem
    | removed n => exact isArrayKey_not_mem_arrayChildWasRemoved s n hmem
    | moved n v p =>
      by_cases hn : n = isArrayKey
      · simpa [arrayStep, arrayChildWasMoved, hn] using hmem
      · simp only [arrayStep, arrayChildWasMoved, hn, if_false, ite_false]
        exact isArrayKey_not_mem_arrayChildWasAdded _ n p v
          (isArrayKey_not_mem_arrayChildWasRemoved s n hmem)

/-- Witness for C9 at concrete inputs: an `added` event for the marker key
leaves the state unchanged, and an ordinary `added` event does not bring
the marker into the names sequence. -/
theorem C9_witness :
    arrayStep (ListState.mk ([1] : List Nat) [nameA])
        (.added isArrayKey 2 none) =
      ListState.mk [1] [nameA] ∧
    isArrayKey ∉ (arrayStep (ListState.mk ([1] : List Nat) [nameA])
        (.added nameB 2 (some nameA))).names := by
  constructor
  · exact (C9_isArray_marker_excluded (ListState.mk ([1] : List Nat) [nameA])
      (.added isArrayKey 2 none)).1 rfl
  · exact (C9_isArray_marker_excluded (ListState.mk ([1] : List Nat) [nameA])
      (.added nameB 2 (some nameA))).2 (by decide)

/-- A connected, live binding owner used by the concrete binding scenarios. -/
def owner0 : Owner := Owner.mk 0 false

/-- A two-way binding world with the single connected owner `owner0`,
no pending direction, an empty sync queue, and local value `7`. -/
def bindingWorld0 : World Nat :=
  { binding :=
      { oneWay := false
        objects := [owner0]
        directionMap := []
        queue := []
        ignoreRefChanges := false }
    locals := fun _ => 7
    remote := none }

/-- C2 (evaluation at the failing input).  The claim says that when both a
`push` and a `pull` are scheduled for an owner before the checkpoint, *in
either order*, the checkpoint applies exactly one sync whose direction is
`pull`, writing the remote value to the local path and issuing no remote
write.  In the push-then-pull order the queued `_sync(object, snapshot)`
call was created by `_pathDidChange`, which passes no snapshot; the later
`pull` only upgrades the direction map.  The checkpoint therefore resolves
direction `pull` and issues no remote write — but `_sync` then calls
`createValueFromSnapshot(undefined)`, i.e. `snapshot.val()` on `undefined`,
which throws a `TypeError` instead of writing the remote value `5` to the
local path (which stays `7`).  In the pull-then-push order the claim's
behaviour does hold. -/
theorem C2_push_then_pull_checkpoint_crashes :
    lookupDir (refDidChange (pathDidChange bindingWorld0 owner0)
        5).binding.directionMap 0 = some Direction.pull ∧
    (checkpoint (refDidChange (pathDidChange bindingWorld0 owner0) 5)).2 =
      [SyncAction.snapshotError] ∧
    (checkpoint (refDidChange (pathDidChange bindingWorld0 owner0) 5)).1.locals 0 = 7 ∧
    (checkpoint (refDidChange (pathDidChange bindingWorld0 owner0) 5)).1.binding.directionMap = [] ∧
    (checkpoint (refDidChange (pathDidChange bindingWorld0 owner0) 5)).1.binding.queue = [] := by
  refine ⟨rfl, rfl, rfl, rfl, rfl⟩

/-- C3: for a two-way binding, when the checkpoint applies a pending `push`
for a live owner, `_sync` issues exactly one outbound remote write carrying
the owner's local value; the synchronously delivered echo runs
`_refDidChange` while `_ignoreRefChanges` is set, so it schedules nothing
(the direction map is exactly the old map with the owner's consumed entry
removed and the queue is untouched), the suppression flag is already
cleared when `_sync` returns (it lasts exactly the duration of the write
call), and no local value changes. -/
theorem C3_push_echo_suppressed {V : Type} (w : World V) (o : Owner)
    (snapshot : Option V) (hlive : o.isDestroyed = false)
    (hdir : lookupDir w.binding.directionMap o.oid = some Direction.push)
    (_htwoWay : w.binding.oneWay = false) :
    (sync w o snapshot).2 = [SyncAction.remoteWrite (w.locals o.oid)] ∧
    (sync w o snapshot).1.binding.directionMap =
      removeDir w.binding.directionMap o.oid ∧
    (sync w o snapshot).1.binding.queue = w.binding.queue ∧
    (sync w o snapshot).1.binding.ignoreRefChanges = false ∧
    (sync w o snapshot).1.locals = w.locals ∧
    (sync w o snapshot).1.remote = some (w.locals o.oid) := by
  simp [sync, hlive, hdir, refDidChange]

/-- Witness for C3: a two-way binding world with local value `7` and a
pending `push` for `owner0`; the sync issues the single remote write of `7`
and clears the pending direction without scheduling anything new. -/
def bindingWorldPush : World Nat :=
  { binding :=
      { oneWay := false
        objects := [owner0]
        directionMap := [(0, Direction.push)]
        queue := []
        ignoreRefChanges := false }
    locals := fun _ => 7
    remote := none }

theorem C3_witness :
    (sync bindingWorldPush owner0 none).2 = [SyncAction.remoteWrite 7] ∧
    (sync bindingWorldPush owner0 none).1.binding.directionMap = [] ∧
    (sync bindingWorldPush owner0 none).1.binding.queue = [] ∧
    (sync bindingWorldPush owner0 none).1.binding.ignoreRefChanges = false ∧
    (sync bindingWorldPush owner0 none).1.remote = some 7 := by
  have h := C3_push_echo_suppressed bindingWorldPush owner0 none rfl rfl rfl
  exact ⟨h.1, h.2.1, h.2.2.1, h.2.2.2.1, h.2.2.2.2.2⟩

/-- C10: at the checkpoint, `_sync` for an owner whose `isDestroyed` flag
is set returns before doing anything: no local write, no remote write, no
error, and the whole world — direction map included — is unchanged; only
the schedule entry itself has been consumed by the run loop. -/
theorem C10_sync_skips_destroyed_owner {V : Type} (w : World V) (i : Nat)
    (snapshot : Option V) :
    sync w (Owner.mk i true) snapshot = (w, []) :=
  rfl
